import Mathlib

/-!
Verification development for the pairprogrammer repository's real-time
synchronization subsystem.

The definitions below are a shallow embedding of the Python source:
- `src/routers/websocket.py` (`websocket_endpoint`): the per-connection
  websocket handler — authentication, room lookup, registry attach,
  participant provisioning, joined broadcast, document replay, the
  receive/write/broadcast loop, and the `finally` cleanup block;
- `src/routers/rooms.py` (`join_room`): the explicit join endpoint;
- `src/models.py`: the `Room`, `User` and `RoomParticipant` rows.

The database is modelled as lists of rows inside `ServerState`; the module
level `connections` dict of `websocket.py` is an association list from room
id to the list of live connection records.  Websocket transport handles are
opaque `Nat` identifiers (Python compares them with `is`; handles of
distinct live connections are distinct objects).  Send success for each
recipient is an oracle `ok : Nat → Bool` standing for whether that
recipient's `send_json` raises; database commit success in the message loop
is an explicit `Bool`.  Fallible paths return `Except`, mirroring Python
exceptions that the source does not catch.
-/

/-- A live websocket connection record, as stored in the `connections` dict of
`src/routers/websocket.py` (`{"ws": websocket, "user_id": user_id}`). -/
structure ConnInfo where
  ws : Nat
  user_id : Option String
deriving DecidableEq, Repr

/-- A `rooms` table row (`src/models.py`, class `Room`), restricted to the
columns the embedded endpoints read. -/
structure PRoom where
  id : String
  name : String
  code : String
  admin_id : String
  is_private : Bool
  password_hash : Option String
deriving DecidableEq, Repr

/-- A `users` table row (`src/models.py`, class `User`), restricted to the
columns the embedded endpoints read. -/
structure PUser where
  id : String
  username : String
deriving DecidableEq, Repr

/-- A `room_participants` table row (`src/models.py`, class `RoomParticipant`). -/
structure Participant where
  pid : String
  room_id : String
  user_id : String
deriving DecidableEq, Repr

/-- The registry type: the module-level `connections : Dict[str, List[dict]]`
of `src/routers/websocket.py`, as an association list.  Python dict keys are
unique; operations below never create a duplicate key. -/
abbrev Registry := List (String × List ConnInfo)

/-- Overall server state: the relational store plus the in-memory
connection registry. -/
structure ServerState where
  rooms : List PRoom
  users : List PUser
  participants : List Participant
  connections : Registry
deriving DecidableEq, Repr

/-- `db.query(Room).filter(Room.id == room_id).first()`. -/
def lookupRoom (rooms : List PRoom) (rid : String) : Option PRoom :=
  rooms.find? (fun r => r.id == rid)

/-- `db.query(User).filter(User.id == user_id).first()`. -/
def findUser (users : List PUser) (uid : String) : Option PUser :=
  users.find? (fun u => u.id == uid)

/-- `db.query(RoomParticipant).filter(room_id ==, user_id ==).first()`. -/
def findParticipant (ps : List Participant) (rid uid : String) : Option Participant :=
  ps.find? (fun p => p.room_id == rid && p.user_id == uid)

/-- `room_id in connections` / `connections[room_id]`: first entry for the key. -/
def lookupConns (reg : Registry) (rid : String) : Option (List ConnInfo) :=
  (reg.find? (fun e => e.1 == rid)).map Prod.snd

/-- `connections[room_id] = l`: rewrite the entry for the key in place. -/
def setConns (reg : Registry) (rid : String) (l : List ConnInfo) : Registry :=
  reg.map (fun e => if e.1 == rid then (rid, l) else e)

/-- Lines 44-50 of `websocket.py`: create the room's entry on first attach
(`if room_id not in connections: connections[room_id] = []`), then append the
connection record. -/
def attach (reg : Registry) (rid : String) (c : ConnInfo) : Registry :=
  let reg1 := if (lookupConns reg rid).isSome then reg else reg ++ [(rid, [])]
  setConns reg1 rid (((lookupConns reg1 rid).getD []) ++ [c])

/-- Lines 110-117 of `websocket.py` (the `finally` block's removal): filter
the departing handle out of the room's list and prune the entry when the
result is empty (`del connections[room_id]`). -/
def detach (reg : Registry) (rid : String) (ws : Nat) : Registry :=
  match lookupConns reg rid with
  | none => reg
  | some l =>
    let l2 := l.filter (fun c => c.ws != ws)
    if l2.isEmpty then reg.filter (fun e => e.1 != rid)
    else setConns reg rid l2

/-- The fan-out loops at lines 77-82 and 98-104 of `websocket.py`: iterate the
room's connection list, skip the sender (`conn["ws"] is websocket`), attempt
the send inside `try: ... except: pass` so one recipient's failure is
swallowed and iteration continues.  Returns the handles actually delivered
to, given the per-recipient success oracle. -/
def deliverExcept (conns : List ConnInfo) (sender : Nat) (ok : Nat → Bool) : List Nat :=
  match conns with
  | [] => []
  | c :: rest =>
    if c.ws = sender then deliverExcept rest sender ok
    else if ok c.ws then c.ws :: deliverExcept rest sender ok
    else deliverExcept rest sender ok

/-- The fan-out loop at lines 128-132 of `websocket.py` (leave broadcast):
same per-recipient `try/except` discipline, but with no sender exclusion. -/
def deliverAll (conns : List ConnInfo) (ok : Nat → Bool) : List Nat :=
  match conns with
  | [] => []
  | c :: rest =>
    if ok c.ws then c.ws :: deliverAll rest ok
    else deliverAll rest ok

/-- Observable actions of one endpoint invocation, in program order. -/
inductive Event where
  | errorSent (receiver : Nat) (msg : String)
  | closedConn (receiver : Nat)
  | joinedSent (receiver : Nat) (uid : String) (username : String)
  | codeSent (receiver : Nat) (content : String)
  | storeWrite (rid : String) (content : String)
  | leftSent (receiver : Nat) (uid : String) (username : String)
deriving DecidableEq, Repr

/-- Lines 53-66 of `websocket.py` (also the tail of `join_room` in
`rooms.py`): add a `RoomParticipant` row unless one already exists for the
pair.  `pid` stands for the fresh `uuid4` primary key. -/
def provisionParticipant (st : ServerState) (rid uid pid : String) : ServerState :=
  match findParticipant st.participants rid uid with
  | some _ => st
  | none => { st with participants := st.participants ++ [⟨pid, rid, uid⟩] }

/-- Lines 25-86 of `websocket.py`: the connection phase of
`websocket_endpoint`, up to (not including) the message loop.

`user_id` is the identity decoded from the bearer token; token decoding
itself lives in `utils/auth_utils.py`, which is outside `src/`, and is
abstracted per the spec's identity collaborator (`verifyCredential(token) ->
identity | Invalid`, absent/invalid token giving an anonymous connection).
Database commits on this path are modelled as succeeding.  Returns the new
state, the events emitted, and whether the connection reached the message
loop (`false` exactly on the room-not-found early return). -/
def wsConnect (st : ServerState) (rid : String) (ws : Nat) (user_id : Option String)
    (pid : String) (ok : Nat → Bool) : ServerState × List Event × Bool :=
  match lookupRoom st.rooms rid with
  | none => (st, [.errorSent ws "Room not found", .closedConn ws], false)
  | some room =>
    let st1 := { st with connections := attach st.connections rid ⟨ws, user_id⟩ }
    let step2 : ServerState × List Event :=
      match user_id with
      | none => (st1, [])
      | some uid =>
        let st2 := provisionParticipant st1 rid uid pid
        match findUser st2.users uid with
        | none => (st2, [])
        | some u =>
          let rs := deliverExcept ((lookupConns st2.connections rid).getD []) ws ok
          (st2, rs.map (fun r => Event.joinedSent r uid u.username))
    let evs3 : List Event := if room.code ≠ "" then [.codeSent ws room.code] else []
    (step2.1, step2.2 ++ evs3, true)

/-- The store write at lines 93-96 of `websocket.py`: replace the `code`
column of the room row wholesale (`room.code = data; db.commit()`). -/
def writeCode (rooms : List PRoom) (rid data : String) : List PRoom :=
  rooms.map (fun r => if r.id == rid then { r with code := data } else r)

/-- Lines 90-104 of `websocket.py`: one iteration of the message loop after
`receive_text` returns `data`.  The room is re-queried; if present, its
`code` column is replaced wholesale and committed — `commitOk = false` is a
store failure at that commit, which the source does not catch, so it
propagates as `Except.error`.  If the room row is gone the write is skipped.
The payload is then fanned out to the room's other connections. -/
def handleMessage (st : ServerState) (rid : String) (ws : Nat) (data : String)
    (commitOk : Bool) (ok : Nat → Bool) : Except Unit (ServerState × List Event) :=
  match lookupRoom st.rooms rid with
  | some _ =>
    if commitOk then
      let st1 := { st with rooms := writeCode st.rooms rid data }
      let rs := deliverExcept ((lookupConns st1.connections rid).getD []) ws ok
      .ok (st1, .storeWrite rid data :: rs.map (fun r => Event.codeSent r data))
    else .error ()
  | none =>
    let rs := deliverExcept ((lookupConns st.connections rid).getD []) ws ok
    .ok (st, rs.map (fun r => Event.codeSent r data))

/-- Lines 88-104 of `websocket.py`: the `while True` receive loop, run over a
finite inbound message list ending in a `WebSocketDisconnect` (which the
source catches with `pass`).  The returned `Bool` is `true` when an uncaught
store error aborted the loop. -/
def runLoop (st : ServerState) (rid : String) (ws : Nat) (msgs : List String)
    (commitOk : String → Bool) (ok : Nat → Bool) : ServerState × List Event × Bool :=
  match msgs with
  | [] => (st, [], false)
  | m :: rest =>
    match handleMessage st rid ws m (commitOk m) ok with
    | .ok (st1, evs) =>
      let r := runLoop st1 rid ws rest commitOk ok
      (r.1, evs ++ r.2.1, r.2.2)
    | .error _ => (st, [], true)

/-- Lines 108-134 of `websocket.py`: the `finally` block.  The departing
handle is removed from the registry first (pruning an emptied entry); only
then, if the connection was authenticated, its user row exists and the room
id still has a registry entry, is the leave message fanned out to that
post-removal entry. -/
def wsCleanup (st : ServerState) (rid : String) (ws : Nat) (user_id : Option String)
    (ok : Nat → Bool) : ServerState × List Event :=
  let st1 := { st with connections := detach st.connections rid ws }
  let evs : List Event :=
    match user_id with
    | none => []
    | some uid =>
      match findUser st1.users uid with
      | none => []
      | some u =>
        match lookupConns st1.connections rid with
        | none => []
        | some l => (deliverAll l ok).map (fun r => Event.leftSent r uid u.username)
  (st1, evs)

/-- The whole of `websocket_endpoint` (lines 24-134 of `websocket.py`): the
connection phase, then — when the room was found — the message loop, then in
every case the `finally` cleanup.  The returned `Bool` is `true` when a
store-commit exception escaped the loop (it re-raises after `finally`). -/
def websocketEndpoint (st : ServerState) (rid : String) (ws : Nat)
    (user_id : Option String) (pid : String) (msgs : List String)
    (commitOk : String → Bool) (ok : Nat → Bool) : ServerState × List Event × Bool :=
  let c := wsConnect st rid ws user_id pid ok
  if c.2.2 then
    let r := runLoop c.1 rid ws msgs commitOk ok
    let f := wsCleanup r.1 rid ws user_id ok
    (f.1, c.2.1 ++ r.2.1 ++ f.2, r.2.2)
  else
    let f := wsCleanup c.1 rid ws user_id ok
    (f.1, c.2.1 ++ f.2, false)

/-- Modelled from the spec: password verification for a room's optional
access secret.  The real check lives in `utils/auth_utils.py`
(`verify_password` over a bcrypt hash), which is not under `src/`; the spec
only posits an opaque access secret, so hashing is modelled as the identity
and verification as equality of the presented credential with the stored
one. -/
def verify_password (plain stored : String) : Bool :=
  plain == stored

/-- Error responses of the `join_room` endpoint (`rooms.py` lines 197-241). -/
inductive JoinErr where
  | roomNotFound
  | passwordRequired
  | incorrectPassword
deriving DecidableEq, Repr

/-- `join_room` (`rooms.py` lines 197-241): 404 when the room is missing;
early success when the caller is already a participant (before any password
check); for a private room a password is required and verified against the
stored hash; then the participant row is inserted.  `pid` is the fresh
`uuid4` primary key. -/
def join_room (st : ServerState) (rid uid : String) (password : Option String)
    (pid : String) : Except JoinErr (ServerState × String) :=
  match lookupRoom st.rooms rid with
  | none => .error .roomNotFound
  | some room =>
    match findParticipant st.participants rid uid with
    | some _ => .ok (st, "Already a participant")
    | none =>
      if room.is_private then
        match password with
        | none => .error .passwordRequired
        | some pw =>
          match room.password_hash with
          | none => .error .incorrectPassword
          | some h =>
            if verify_password pw h then
              .ok ({ st with participants := st.participants ++ [⟨pid, rid, uid⟩] },
                "Joined room successfully")
            else .error .incorrectPassword
      else
        .ok ({ st with participants := st.participants ++ [⟨pid, rid, uid⟩] },
          "Joined room successfully")

/-- Count of membership rows for one (room, identity) pair. -/
def countPairs (ps : List Participant) (rid uid : String) : Nat :=
  (ps.filter (fun p => p.room_id == rid && p.user_id == uid)).length

/-- A registry operation: one connection attaching to or detaching from a
room (the only mutations `websocket.py` performs on `connections`). -/
inductive RegOp where
  | att (rid : String) (c : ConnInfo)
  | det (rid : String) (ws : Nat)
deriving DecidableEq, Repr

/-- Replay a sequence of attach/detach operations on a registry. -/
def applyOps (reg : Registry) (ops : List RegOp) : Registry :=
  match ops with
  | [] => reg
  | .att rid c :: rest => applyOps (attach reg rid c) rest
  | .det rid w :: rest => applyOps (detach reg rid w) rest

/-- Concrete state: one private, password-protected room whose only
recorded member is its owner. -/
def exStPriv : ServerState :=
  { rooms := [⟨"r1", "room one", "print(1)", "owner1", true, some "pw"⟩],
    users := [⟨"owner1", "olivia"⟩, ⟨"u1", "alice"⟩, ⟨"u2", "bob"⟩],
    participants := [⟨"pp0", "r1", "owner1"⟩],
    connections := [] }

/-- Concrete state: the private room of `exStPriv` with connections 1
(anonymous) and 2 (user u2) live in it. -/
def exStLoop : ServerState :=
  { rooms := [⟨"r1", "room one", "print(1)", "owner1", true, some "pw"⟩],
    users := [⟨"owner1", "olivia"⟩, ⟨"u1", "alice"⟩, ⟨"u2", "bob"⟩],
    participants := [⟨"pp0", "r1", "owner1"⟩],
    connections := [("r1", [⟨1, none⟩, ⟨2, some "u2"⟩])] }

/-- Concrete state: room r1 has been deleted from the store while
connections 1 and 2 are still live in the registry. -/
def exStGone : ServerState :=
  { rooms := [],
    users := [⟨"owner1", "olivia"⟩, ⟨"u1", "alice"⟩, ⟨"u2", "bob"⟩],
    participants := [⟨"pp0", "r1", "owner1"⟩],
    connections := [("r1", [⟨1, none⟩, ⟨2, some "u2"⟩])] }

/-- Concrete state: no room r1 exists, but the registry still holds a stale
entry for it with live connection 2, and user u1 exists. -/
def exStStale : ServerState :=
  { rooms := [],
    users := [⟨"u1", "alice"⟩, ⟨"u2", "bob"⟩],
    participants := [],
    connections := [("r1", [⟨2, some "u2"⟩])] }

/-- Concrete state: one public room with no participants yet. -/
def exStPub : ServerState :=
  { rooms := [⟨"p1", "pub", "", "owner1", false, none⟩],
    users := [⟨"owner1", "olivia"⟩, ⟨"u1", "alice"⟩],
    participants := [],
    connections := [] }

/-! ## Helper lemmas -/

theorem deliverExcept_mem (conns : List ConnInfo) (sender : Nat) (ok : Nat → Bool) (w : Nat) :
    w ∈ deliverExcept conns sender ok ↔
      (∃ c ∈ conns, c.ws = w) ∧ w ≠ sender ∧ ok w = true := by
  induction conns with
  | nil => simp [deliverExcept]
  | cons c rest ih =>
    by_cases h1 : c.ws = sender
    · rw [deliverExcept, if_pos h1, ih]
      constructor
      · rintro ⟨⟨x, hx, hxw⟩, hne, hok⟩
        exact ⟨⟨x, List.mem_cons_of_mem _ hx, hxw⟩, hne, hok⟩
      · rintro ⟨⟨x, hx, hxw⟩, hne, hok⟩
        rcases List.mem_cons.mp hx with rfl | hx
        · exact absurd (hxw ▸ h1) hne
        · exact ⟨⟨x, hx, hxw⟩, hne, hok⟩
    · rw [deliverExcept, if_neg h1]
      by_cases h2 : ok c.ws = true
      · rw [if_pos h2, List.mem_cons]
        constructor
        · rintro (rfl | hw)
          · exact ⟨⟨c, List.mem_cons_self _ _, rfl⟩, h1, h2⟩
          · obtain ⟨⟨x, hx, hxw⟩, hne, hok⟩ := ih.mp hw
            exact ⟨⟨x, List.mem_cons_of_mem _ hx, hxw⟩, hne, hok⟩
        · rintro ⟨⟨x, hx, hxw⟩, hne, hok⟩
          rcases List.mem_cons.mp hx with rfl | hx
          · exact Or.inl hxw.symm
          · exact Or.inr (ih.mpr ⟨⟨x, hx, hxw⟩, hne, hok⟩)
      · rw [if_neg h2, ih]
        constructor
        · rintro ⟨⟨x, hx, hxw⟩, hne, hok⟩
          exact ⟨⟨x, List.mem_cons_of_mem _ hx, hxw⟩, hne, hok⟩
        · rintro ⟨⟨x, hx, hxw⟩, hne, hok⟩
          rcases List.mem_cons.mp hx with rfl | hx
          · exact absurd (hxw ▸ rfl : ok x.ws = ok w) (by simp [hok, h2])
          · exact ⟨⟨x, hx, hxw⟩, hne, hok⟩

theorem deliverAll_mem (l : List ConnInfo) (ok : Nat → Bool) (r : Nat) :
    r ∈ deliverAll l ok ↔ (∃ c ∈ l, c.ws = r) ∧ ok r = true := by
  induction l with
  | nil => simp [deliverAll]
  | cons c rest ih =>
    by_cases h : ok c.ws = true
    · rw [deliverAll, if_pos h, List.mem_cons]
      constructor
      · rintro (rfl | hr)
        · exact ⟨⟨c, List.mem_cons_self _ _, rfl⟩, h⟩
        · obtain ⟨⟨x, hx, hxw⟩, hok⟩ := ih.mp hr
          exact ⟨⟨x, List.mem_cons_of_mem _ hx, hxw⟩, hok⟩
      · rintro ⟨⟨x, hx, hxw⟩, hok⟩
        rcases List.mem_cons.mp hx with rfl | hx
        · exact Or.inl hxw.symm
        · exact Or.inr (ih.mpr ⟨⟨x, hx, hxw⟩, hok⟩)
    · rw [deliverAll, if_neg h, ih]
      constructor
      · rintro ⟨⟨x, hx, hxw⟩, hok⟩
        exact ⟨⟨x, List.mem_cons_of_mem _ hx, hxw⟩, hok⟩
      · rintro ⟨⟨x, hx, hxw⟩, hok⟩
        rcases List.mem_cons.mp hx with rfl | hx
        · exact absurd (hxw ▸ rfl : ok x.ws = ok r) (by simp [hok, h])
        · exact ⟨⟨x, hx, hxw⟩, hok⟩

theorem lookupConns_cons (e : String × List ConnInfo) (reg : Registry) (rid : String) :
    lookupConns (e :: reg) rid =
      if e.1 == rid then some e.2 else lookupConns reg rid := by
  by_cases h : (e.1 == rid) = true
  · simp [lookupConns, List.find?_cons_of_pos, h]
  · simp [lookupConns, List.find?_cons_of_neg, h]

theorem lookupConns_setConns (reg : Registry) (rid : String) (l2 : List ConnInfo)
    (h : (lookupConns reg rid).isSome) :
    lookupConns (setConns reg rid l2) rid = some l2 := by
  induction reg with
  | nil => simp [lookupConns] at h
  | cons e rest ih =>
    by_cases he : e.1 = rid
    · simp [setConns, lookupConns_cons, he]
    · rw [lookupConns_cons, if_neg (by simpa using he)] at h
      have hset : setConns (e :: rest) rid l2 = e :: setConns rest rid l2 := by
        simp [setConns, he]
      rw [hset, lookupConns_cons, if_neg (by simpa using he)]
      exact ih h

theorem lookupConns_append_none (reg reg2 : Registry) (rid : String)
    (h : lookupConns reg rid = none) :
    lookupConns (reg ++ reg2) rid = lookupConns reg2 rid := by
  induction reg with
  | nil => rfl
  | cons e rest ih =>
    rw [lookupConns_cons] at h
    by_cases he : (e.1 == rid) = true
    · rw [if_pos he] at h; exact absurd h (by simp)
    · rw [if_neg he] at h
      rw [List.cons_append, lookupConns_cons, if_neg he]
      exact ih h

theorem lookupConns_filter_self (reg : Registry) (rid : String) :
    lookupConns (reg.filter (fun e => e.1 != rid)) rid = none := by
  induction reg with
  | nil => rfl
  | cons e rest ih =>
    by_cases he : (e.1 == rid) = true
    · simpa [List.filter, bne, he] using ih
    · rw [List.filter_cons_of_pos (by simp [bne, he])]
      rw [lookupConns_cons, if_neg he]
      exact ih

theorem lookupConns_attach (reg : Registry) (rid : String) (c : ConnInfo) :
    lookupConns (attach reg rid c) rid =
      some (((lookupConns reg rid).getD []) ++ [c]) := by
  cases hl : lookupConns reg rid with
  | some l =>
    have hs : (lookupConns reg rid).isSome := by simp [hl]
    have ha : attach reg rid c = setConns reg rid (l ++ [c]) := by
      simp [attach, hl]
    rw [ha, lookupConns_setConns _ _ _ hs]
    rfl
  | none =>
    have happ : lookupConns (reg ++ [(rid, [])]) rid = some [] := by
      rw [lookupConns_append_none _ _ _ hl, lookupConns_cons]
      simp
    have ha : attach reg rid c = setConns (reg ++ [(rid, [])]) rid ([] ++ [c]) := by
      simp [attach, hl, happ]
    rw [ha, lookupConns_setConns _ _ _ (by simp [happ])]
    rfl

theorem mem_setConns (reg : Registry) (rid : String) (l : List ConnInfo)
    (e : String × List ConnInfo) (he : e ∈ setConns reg rid l) :
    e = (rid, l) ∨ (e ∈ reg ∧ (e.1 == rid) = false) := by
  unfold setConns at he
  obtain ⟨x, hx, hfx⟩ := List.mem_map.mp he
  by_cases h : (x.1 == rid) = true
  · left; rw [if_pos h] at hfx; exact hfx.symm
  · right; rw [if_neg h] at hfx; subst hfx
    exact ⟨hx, by simpa using h⟩

theorem attach_inv (reg : Registry) (rid : String) (c : ConnInfo)
    (h : ∀ e ∈ reg, e.2 ≠ []) :
    ∀ e ∈ attach reg rid c, e.2 ≠ [] := by
  intro e he
  cases hl : lookupConns reg rid with
  | some l =>
    have ha : attach reg rid c = setConns reg rid (l ++ [c]) := by
      simp [attach, hl]
    rw [ha] at he
    rcases mem_setConns _ _ _ _ he with rfl | ⟨hmem, _⟩
    · simp
    · exact h e hmem
  | none =>
    have happ : lookupConns (reg ++ [(rid, [])]) rid = some [] := by
      rw [lookupConns_append_none _ _ _ hl, lookupConns_cons]
      simp
    have ha : attach reg rid c = setConns (reg ++ [(rid, [])]) rid ([] ++ [c]) := by
      simp [attach, hl, happ]
    rw [ha] at he
    rcases mem_setConns _ _ _ _ he with rfl | ⟨hmem, hne⟩
    · simp
    · rcases List.mem_append.mp hmem with hm | hm
      · exact h e hm
      · rcases List.mem_singleton.mp hm with rfl
        simp at hne

theorem detach_inv (reg : Registry) (rid : String) (ws : Nat)
    (h : ∀ e ∈ reg, e.2 ≠ []) :
    ∀ e ∈ detach reg rid ws, e.2 ≠ [] := by
  intro e he
  unfold detach at he
  cases hl : lookupConns reg rid with
  | none => rw [hl] at he; exact h e he
  | some l =>
    rw [hl] at he
    simp only at he
    by_cases hemp : (l.filter (fun c => c.ws != ws)).isEmpty
    · rw [if_pos hemp] at he
      exact h e (List.mem_of_mem_filter he)
    · rw [if_neg hemp] at he
      rcases mem_setConns _ _ _ _ he with rfl | ⟨hmem, _⟩
      · simpa [List.isEmpty_iff] using hemp
      · exact h e hmem

theorem applyOps_inv (ops : List RegOp) (reg : Registry)
    (h : ∀ e ∈ reg, e.2 ≠ []) :
    ∀ e ∈ applyOps reg ops, e.2 ≠ [] := by
  induction ops generalizing reg with
  | nil => simpa [applyOps] using h
  | cons op rest ih =>
    cases op with
    | att rid c => exact ih _ (attach_inv _ _ _ h)
    | det rid w => exact ih _ (detach_inv _ _ _ h)

theorem findParticipant_none_of_countPairs_zero (ps : List Participant) (rid uid : String)
    (h : countPairs ps rid uid = 0) : findParticipant ps rid uid = none := by
  rw [findParticipant, List.find?_eq_none]
  intro p hp hpred
  have hmem : p ∈ ps.filter (fun p => p.room_id == rid && p.user_id == uid) :=
    List.mem_filter.mpr ⟨hp, hpred⟩
  rw [countPairs, List.length_eq_zero] at h
  rw [h] at hmem
  exact absurd hmem (List.not_mem_nil p)

theorem countPairs_append (ps qs : List Participant) (rid uid : String) :
    countPairs (ps ++ qs) rid uid = countPairs ps rid uid + countPairs qs rid uid := by
  simp [countPairs, List.filter_append]

theorem findParticipant_append (ps qs : List Participant) (rid uid : String)
    (h : findParticipant ps rid uid = none) :
    findParticipant (ps ++ qs) rid uid = findParticipant qs rid uid := by
  rw [findParticipant, List.find?_append]
  rw [findParticipant] at h
  rw [h]
  rfl

theorem lookupRoom_map_update (rooms : List PRoom) (rid : String) (data : String)
    (room : PRoom) (h : lookupRoom rooms rid = some room) :
    lookupRoom (writeCode rooms rid data) rid = some { room with code := data } := by
  unfold writeCode
  induction rooms with
  | nil => simp [lookupRoom] at h
  | cons r rest ih =>
    by_cases hr : r.id = rid
    · rw [lookupRoom, List.find?_cons_of_pos _ (by simpa using hr)] at h
      obtain rfl := Option.some_injective _ h
      simp [lookupRoom, List.find?_cons_of_pos, hr]
    · rw [lookupRoom, List.find?_cons_of_neg _ (by simpa using hr)] at h
      have hstep : (List.map (fun r => if r.id == rid then { r with code := data } else r)
          (r :: rest))
          = r :: List.map (fun r => if r.id == rid then { r with code := data } else r) rest := by
        simp [hr]
      rw [hstep, lookupRoom, List.find?_cons_of_neg _ (by simpa using hr)]
      exact ih h

theorem detach_not_mem (reg : Registry) (rid : String) (ws : Nat) :
    ∀ c ∈ (lookupConns (detach reg rid ws) rid).getD [], c.ws ≠ ws := by
  intro c hc
  cases hl : lookupConns reg rid with
  | none =>
    unfold detach at hc
    rw [hl] at hc
    rw [hl] at hc
    simp at hc
  | some l =>
    unfold detach at hc
    rw [hl] at hc
    dsimp only at hc
    by_cases hemp : (l.filter (fun c => c.ws != ws)).isEmpty
    · rw [if_pos hemp, lookupConns_filter_self] at hc
      simp at hc
    · rw [if_neg hemp, lookupConns_setConns _ _ _ (by simp [hl])] at hc
      simp only [Option.getD_some] at hc
      simpa using (List.of_mem_filter hc)

/-! ## Claim theorems -/

/-- C4: a broadcast payload is delivered to exactly the connections attached
to the room other than the sender: a handle receives the fan-out iff it is
the handle of a connection in the room's list, it is not the sender (the
sender never receives its own message), and its own send succeeds — the
outcome at one recipient is independent of delivery failures at any other
recipient (the per-recipient `except: pass` swallows them and iteration
continues), and the fan-out loop itself never raises. -/
theorem c4_broadcast_exactly_siblings (conns : List ConnInfo) (sender : Nat)
    (ok : Nat → Bool) (w : Nat) :
    w ∈ deliverExcept conns sender ok ↔
      (∃ c ∈ conns, c.ws = w) ∧ w ≠ sender ∧ ok w = true :=
  deliverExcept_mem conns sender ok w

/-- C5: starting from the empty registry, after any sequence of attach and
detach operations no room id is mapped to an empty session set: a detach
whose resulting set is empty prunes the room's entry entirely
(`del connections[room_id]`), so the registry never holds an entry for a
room with zero attached connections. -/
theorem c5_registry_never_holds_empty_entry (ops : List RegOp) :
    ∀ e ∈ applyOps [] ops, e.2 ≠ [] :=
  applyOps_inv ops [] (by simp)

/-- Witness for C5: a concrete attach sequence, with the membership
hypothesis discharged by evaluation. -/
theorem c5_registry_never_holds_empty_entry_witness :
    (("r1", [(⟨1, none⟩ : ConnInfo)]) : String × List ConnInfo).2 ≠ [] :=
  c5_registry_never_holds_empty_entry [RegOp.att "r1" ⟨1, none⟩]
    ("r1", [⟨1, none⟩]) (by decide)

/-- C8: for an authenticated connection, the cleanup block removes the
departing handle from the registry before the left notification is fanned
out: in the final state the room's session set no longer contains the
departed handle, and every emitted event is a left notification whose
recipient is (the handle of) a connection still present in that post-removal
set — in particular never the departed connection itself, and every
recipient's registry snapshot after the broadcast no longer enumerates the
departed connection. -/
theorem c8_left_notification_after_detach (st : ServerState) (rid : String)
    (ws : Nat) (uid : String) (ok : Nat → Bool) :
    (∀ c ∈ (lookupConns (wsCleanup st rid ws (some uid) ok).1.connections rid).getD [],
        c.ws ≠ ws) ∧
    (∀ e ∈ (wsCleanup st rid ws (some uid) ok).2, ∃ r nm,
        e = Event.leftSent r uid nm ∧ r ≠ ws ∧
        ∃ c ∈ (lookupConns (wsCleanup st rid ws (some uid) ok).1.connections rid).getD [],
          c.ws = r) := by
  have hconn : (wsCleanup st rid ws (some uid) ok).1.connections
      = detach st.connections rid ws := rfl
  constructor
  · rw [hconn]
    exact detach_not_mem st.connections rid ws
  · intro e he
    have hev : (wsCleanup st rid ws (some uid) ok).2
        = match findUser st.users uid with
          | none => []
          | some u =>
            match lookupConns (detach st.connections rid ws) rid with
            | none => []
            | some l => (deliverAll l ok).map (fun r => Event.leftSent r uid u.username) := rfl
    rw [hev] at he
    cases hu : findUser st.users uid with
    | none => rw [hu] at he; simp at he
    | some u =>
      rw [hu] at he
      cases hl : lookupConns (detach st.connections rid ws) rid with
      | none => rw [hl] at he; simp at he
      | some l =>
        rw [hl] at he
        obtain ⟨r, hr, rfl⟩ := List.mem_map.mp he
        obtain ⟨⟨c, hcl, hcw⟩, _⟩ := (deliverAll_mem l ok r).mp hr
        have hcin : c ∈ (lookupConns (wsCleanup st rid ws (some uid) ok).1.connections rid).getD [] := by
          rw [hconn, hl]
          exact hcl
        refine ⟨r, u.username, rfl, ?_, c, hcin, hcw⟩
        have := detach_not_mem st.connections rid ws c (by rw [hl]; exact hcl)
        exact hcw ▸ this

theorem provisionParticipant_of_none (st : ServerState) (rid uid pid : String)
    (h : findParticipant st.participants rid uid = none) :
    provisionParticipant st rid uid pid
      = { st with participants := st.participants ++ [⟨pid, rid, uid⟩] } := by
  unfold provisionParticipant
  rw [h]

theorem provisionParticipant_of_some (st : ServerState) (rid uid pid : String)
    (p : Participant) (h : findParticipant st.participants rid uid = some p) :
    provisionParticipant st rid uid pid = st := by
  unfold provisionParticipant
  rw [h]

theorem wsConnect_state_auth (st : ServerState) (rid : String) (ws : Nat)
    (uid pid : String) (ok : Nat → Bool) (room : PRoom)
    (hroom : lookupRoom st.rooms rid = some room) :
    (wsConnect st rid ws (some uid) pid ok).1
      = provisionParticipant
          { st with connections := attach st.connections rid ⟨ws, some uid⟩ }
          rid uid pid := by
  unfold wsConnect
  rw [hroom]
  dsimp only
  cases findUser (provisionParticipant
      { st with connections := attach st.connections rid ⟨ws, some uid⟩ }
      rid uid pid).users uid <;> rfl

theorem wsConnect_state_anon (st : ServerState) (rid : String) (ws : Nat)
    (pid : String) (ok : Nat → Bool) (room : PRoom)
    (hroom : lookupRoom st.rooms rid = some room) :
    (wsConnect st rid ws none pid ok).1
      = { st with connections := attach st.connections rid ⟨ws, none⟩ } := by
  unfold wsConnect
  rw [hroom]

theorem join_room_ok_state (st st1 : ServerState) (rid uid : String)
    (pw : Option String) (pid m1 : String)
    (hfp : findParticipant st.participants rid uid = none)
    (hjoin : join_room st rid uid pw pid = .ok (st1, m1)) :
    st1 = { st with participants := st.participants ++ [⟨pid, rid, uid⟩] } := by
  cases hroom : lookupRoom st.rooms rid with
  | none => simp [join_room, hroom] at hjoin
  | some room =>
    by_cases hpriv : room.is_private = true
    · cases pw with
      | none => simp [join_room, hroom, hfp, hpriv] at hjoin
      | some p =>
        cases hhash : room.password_hash with
        | none => simp [join_room, hroom, hfp, hpriv, hhash] at hjoin
        | some hsh =>
          by_cases hv : verify_password p hsh = true
          · simp only [join_room, hroom, hfp, hpriv, if_true, hhash, hv,
              Except.ok.injEq, Prod.mk.injEq] at hjoin
            exact hjoin.1.symm
          · simp [join_room, hroom, hfp, hpriv, hhash, hv] at hjoin
    · simp only [join_room, hroom, hfp, hpriv, if_false, Bool.false_eq_true,
        ite_false, Except.ok.injEq, Prod.mk.injEq] at hjoin
      exact hjoin.1.symm

/-- Counterexample to C3 as stated: in `exStPriv` the room r1 has
`is_private = true`, the authenticated caller u1 is not a recorded member,
and the connection path nevertheless provisions a membership record for
(r1, u1) — so provisioning is not restricted to rooms whose privacy flag is
false. -/
theorem c3_private_room_provisions_counterexample :
    lookupRoom exStPriv.rooms "r1"
      = some ⟨"r1", "room one", "print(1)", "owner1", true, some "pw"⟩ ∧
    findParticipant exStPriv.participants "r1" "u1" = none ∧
    (wsConnect exStPriv "r1" 5 (some "u1") "p9" (fun _ => true)).1.participants
      = exStPriv.participants ++ [⟨"p9", "r1", "u1"⟩] := by
  refine ⟨by decide, by decide, by decide⟩

/-- C3 (amended): on the connection path a membership record is provisioned
iff the caller is authenticated and not yet a recorded member — regardless of
the room's privacy flag (the source never consults `is_private` here);
re-provisioning an existing membership leaves the membership relation
unchanged, a no-op rather than an error, and an anonymous connection never
provisions. -/
theorem c3_provisioning_iff_authenticated_nonmember (st : ServerState) (rid : String)
    (ws : Nat) (uid pid : String) (ok : Nat → Bool) (room : PRoom)
    (hroom : lookupRoom st.rooms rid = some room) :
    (findParticipant st.participants rid uid = none →
      (wsConnect st rid ws (some uid) pid ok).1.participants
        = st.participants ++ [⟨pid, rid, uid⟩]) ∧
    (∀ p, findParticipant st.participants rid uid = some p →
      (wsConnect st rid ws (some uid) pid ok).1.participants = st.participants) ∧
    (wsConnect st rid ws none pid ok).1.participants = st.participants := by
  refine ⟨?_, ?_, ?_⟩
  · intro hfp
    have hp := provisionParticipant_of_none
      { st with connections := attach st.connections rid ⟨ws, some uid⟩ } rid uid pid hfp
    rw [wsConnect_state_auth st rid ws uid pid ok room hroom, hp]
  · intro p hfp
    have hp := provisionParticipant_of_some
      { st with connections := attach st.connections rid ⟨ws, some uid⟩ } rid uid pid p hfp
    rw [wsConnect_state_auth st rid ws uid pid ok room hroom, hp]
  · rw [wsConnect_state_anon st rid ws pid ok room hroom]

/-- Witness for C3's amended theorem at a concrete private room and
non-member caller. -/
theorem c3_provisioning_iff_authenticated_nonmember_witness :
    (wsConnect exStPriv "r1" 5 (some "u1") "p9" (fun _ => true)).1.participants
      = exStPriv.participants ++ [⟨"p9", "r1", "u1"⟩] :=
  (c3_provisioning_iff_authenticated_nonmember exStPriv "r1" 5 "u1" "p9" (fun _ => true)
    ⟨"r1", "room one", "print(1)", "owner1", true, some "pw"⟩ (by decide)).1 (by decide)

/-- C9: membership provisioning is idempotent.  Starting from a state with no
membership row for (rid, uid), a successful call of the join endpoint leaves
exactly one row for the pair; calling the join endpoint again succeeds as a
no-op ("Already a participant", before any password check) and leaves the
state untouched; and the connection path's provisioning step on the resulting
state is likewise a no-op. -/
theorem c9_add_member_idempotent (st st1 : ServerState) (rid uid : String)
    (pw : Option String) (pid1 pid2 m1 : String)
    (hcount : countPairs st.participants rid uid = 0)
    (hjoin : join_room st rid uid pw pid1 = .ok (st1, m1)) :
    countPairs st1.participants rid uid = 1 ∧
    join_room st1 rid uid pw pid2 = .ok (st1, "Already a participant") ∧
    provisionParticipant st1 rid uid pid2 = st1 := by
  have hfp : findParticipant st.participants rid uid = none :=
    findParticipant_none_of_countPairs_zero _ _ _ hcount
  have hstate := join_room_ok_state st st1 rid uid pw pid1 m1 hfp hjoin
  have hparts : st1.participants = st.participants ++ [⟨pid1, rid, uid⟩] := by
    rw [hstate]
  have hfind1 : findParticipant st1.participants rid uid
      = some ⟨pid1, rid, uid⟩ := by
    rw [hparts, findParticipant_append _ _ _ _ hfp]
    simp [findParticipant, List.find?]
  have hrooms : lookupRoom st1.rooms rid = lookupRoom st.rooms rid := by
    rw [hstate]
  refine ⟨?_, ?_, ?_⟩
  · rw [hparts, countPairs_append, hcount]
    simp [countPairs]
  · cases hroom : lookupRoom st.rooms rid with
    | none => simp [join_room, hroom] at hjoin
    | some room =>
      simp [join_room, hrooms, hroom, hfind1]
  · exact provisionParticipant_of_some _ _ _ _ _ hfind1

/-- Witness for C9 at a concrete public room: user u1 joins room p1 twice. -/
theorem c9_add_member_idempotent_witness :
    countPairs ({ exStPub with
        participants := exStPub.participants ++ [⟨"pa", "p1", "u1"⟩] } :
          ServerState).participants "p1" "u1" = 1 ∧
    join_room { exStPub with
        participants := exStPub.participants ++ [⟨"pa", "p1", "u1"⟩] } "p1" "u1" none "pb"
      = .ok ({ exStPub with
          participants := exStPub.participants ++ [⟨"pa", "p1", "u1"⟩] },
        "Already a participant") ∧
    provisionParticipant { exStPub with
        participants := exStPub.participants ++ [⟨"pa", "p1", "u1"⟩] } "p1" "u1" "pb"
      = { exStPub with
          participants := exStPub.participants ++ [⟨"pa", "p1", "u1"⟩] } :=
  c9_add_member_idempotent exStPub
    { exStPub with participants := exStPub.participants ++ [⟨"pa", "p1", "u1"⟩] }
    "p1" "u1" none "pa" "pb" "Joined room successfully" (by decide) (by rfl)

/-- Counterexample to C2 as stated: in `exStLoop` room r1 exists and sibling
connection 2 is live; a store failure at the commit of connection 1's update
"xyz" raises out of the iteration — no broadcast to connection 2 happens (no
events at all are emitted) and the receive loop terminates with the error
propagating, instead of the update being dropped quietly with the broadcast
proceeding and the session surviving. -/
theorem c2_commit_failure_counterexample :
    handleMessage exStLoop "r1" 1 "xyz" false (fun _ => true) = .error () ∧
    runLoop exStLoop "r1" 1 ["xyz"] (fun _ => false) (fun _ => true)
      = (exStLoop, [], true) := by
  refine ⟨rfl, rfl⟩

/-- C2 (amended): when the document-store commit of an in-flight update
fails, the update is dropped, but the broadcast to siblings does not proceed
and the failure is not contained: the iteration raises with no events
emitted and the session's receive loop terminates, the exception propagating
(the source catches only `WebSocketDisconnect`).  The drop-and-still-
broadcast behaviour holds only for a write skipped because the room row is
missing. -/
theorem c2_commit_failure_aborts_session (st : ServerState) (rid : String)
    (ws : Nat) (data : String) (rest : List String) (ok : Nat → Bool)
    (h : (lookupRoom st.rooms rid).isSome = true) :
    handleMessage st rid ws data false ok = .error () ∧
    runLoop st rid ws (data :: rest) (fun _ => false) ok = (st, [], true) := by
  obtain ⟨room, hroom⟩ := Option.isSome_iff_exists.mp h
  have h1 : handleMessage st rid ws data false ok = .error () := by
    simp [handleMessage, hroom]
  refine ⟨h1, ?_⟩
  simp [runLoop, h1]

/-- Witness for C2's amended theorem at a concrete state. -/
theorem c2_commit_failure_aborts_session_witness :
    handleMessage exStLoop "r1" 2 "abc" false (fun _ => true) = .error () ∧
    runLoop exStLoop "r1" 2 ["abc"] (fun _ => false) (fun _ => true)
      = (exStLoop, [], true) :=
  c2_commit_failure_aborts_session exStLoop "r1" 2 "abc" [] (fun _ => true) (by decide)

/-- C10: if the room row no longer exists when an update arrives, the
document-store write is skipped — the state (in particular the store) is
unchanged and no store-write event occurs — but the update is still fanned
out to the room's connections other than the sender, the iteration returns
normally, and every live sibling whose send succeeds receives the payload. -/
theorem c10_room_gone_write_skipped_broadcast_proceeds (st : ServerState)
    (rid : String) (ws : Nat) (data : String) (commitOk : Bool) (ok : Nat → Bool)
    (h : lookupRoom st.rooms rid = none) :
    handleMessage st rid ws data commitOk ok
      = .ok (st, (deliverExcept ((lookupConns st.connections rid).getD []) ws ok).map
          (fun r => Event.codeSent r data)) ∧
    (∀ c ∈ (lookupConns st.connections rid).getD [], c.ws ≠ ws → ok c.ws = true →
      Event.codeSent c.ws data
        ∈ (deliverExcept ((lookupConns st.connections rid).getD []) ws ok).map
            (fun r => Event.codeSent r data)) := by
  refine ⟨by simp [handleMessage, h], ?_⟩
  intro c hc hne hok
  exact List.mem_map.mpr ⟨c.ws, (deliverExcept_mem _ _ _ _).mpr ⟨⟨c, hc, rfl⟩, hne, hok⟩, rfl⟩

/-- Witness for C10 at a concrete state where the room was deleted while
connections 1 and 2 are live. -/
theorem c10_room_gone_write_skipped_broadcast_proceeds_witness :
    handleMessage exStGone "r1" 1 "xyz" true (fun _ => true)
      = .ok (exStGone,
          (deliverExcept ((lookupConns exStGone.connections "r1").getD []) 1
            (fun _ => true)).map (fun r => Event.codeSent r "xyz")) :=
  (c10_room_gone_write_skipped_broadcast_proceeds exStGone "r1" 1 "xyz" true
    (fun _ => true) (by rfl)).1

theorem handleMessage_commit_ok (st : ServerState) (rid : String) (ws : Nat)
    (data : String) (ok : Nat → Bool) (room : PRoom)
    (hroom : lookupRoom st.rooms rid = some room) :
    handleMessage st rid ws data true ok
      = .ok ({ st with rooms := writeCode st.rooms rid data },
          Event.storeWrite rid data ::
            (deliverExcept ((lookupConns st.connections rid).getD []) ws ok).map
              (fun r => Event.codeSent r data)) := by
  simp [handleMessage, hroom]

/-- C7: with the room present and the store healthy, every loop iteration
performs the full-replace store write and then the broadcast of that payload
to the sibling connections, both completing before the next receive: over an
arbitrary inbound message list the event trace is exactly, message by
message in the order received, one store write of the entire payload
followed by the code fan-out to the (unchanged) sibling set; the loop does
not error, the registry is untouched, and the room's stored code after the
loop is the last message received (the initial code when there is none) —
updates from the same connection are applied in order, last write wins. -/
theorem c7_write_then_broadcast_in_order (st : ServerState) (rid : String)
    (ws : Nat) (msgs : List String) (ok : Nat → Bool) (room : PRoom)
    (hroom : lookupRoom st.rooms rid = some room) :
    (runLoop st rid ws msgs (fun _ => true) ok).2.1
      = msgs.flatMap (fun m =>
          Event.storeWrite rid m ::
            (deliverExcept ((lookupConns st.connections rid).getD []) ws ok).map
              (fun r => Event.codeSent r m)) ∧
    (runLoop st rid ws msgs (fun _ => true) ok).2.2 = false ∧
    (runLoop st rid ws msgs (fun _ => true) ok).1.connections = st.connections ∧
    lookupRoom (runLoop st rid ws msgs (fun _ => true) ok).1.rooms rid
      = some { room with code := msgs.foldl (fun _ m => m) room.code } := by
  induction msgs generalizing st room with
  | nil =>
    refine ⟨rfl, rfl, rfl, ?_⟩
    simpa [runLoop] using hroom
  | cons m rest ih =>
    have hm := handleMessage_commit_ok st rid ws m ok room hroom
    have hroom1 : lookupRoom ({ st with rooms := writeCode st.rooms rid m } :
          ServerState).rooms rid = some { room with code := m } :=
      lookupRoom_map_update st.rooms rid m room hroom
    obtain ⟨ih1, ih2, ih3, ih4⟩ :=
      ih { st with rooms := writeCode st.rooms rid m } { room with code := m } hroom1
    have hrun : runLoop st rid ws (m :: rest) (fun _ => true) ok
        = ((runLoop { st with rooms := writeCode st.rooms rid m }
              rid ws rest (fun _ => true) ok).1,
           (Event.storeWrite rid m ::
             (deliverExcept ((lookupConns st.connections rid).getD []) ws ok).map
               (fun r => Event.codeSent r m)) ++
             (runLoop { st with rooms := writeCode st.rooms rid m }
               rid ws rest (fun _ => true) ok).2.1,
           (runLoop { st with rooms := writeCode st.rooms rid m }
             rid ws rest (fun _ => true) ok).2.2) := by
      rw [runLoop, hm]
    rw [hrun]
    refine ⟨?_, ih2, ih3, ih4⟩
    rw [List.flatMap_cons, ih1]

/-- Witness for C7 at a concrete state: two updates "a" then "b" from
connection 1, with sibling connection 2 live. -/
theorem c7_write_then_broadcast_in_order_witness :
    (runLoop exStLoop "r1" 1 ["a", "b"] (fun _ => true) (fun _ => true)).2.1
      = (["a", "b"] : List String).flatMap (fun m =>
          Event.storeWrite "r1" m ::
            (deliverExcept ((lookupConns exStLoop.connections "r1").getD []) 1
              (fun _ => true)).map (fun r => Event.codeSent r m)) ∧
    (runLoop exStLoop "r1" 1 ["a", "b"] (fun _ => true) (fun _ => true)).2.2 = false ∧
    (runLoop exStLoop "r1" 1 ["a", "b"] (fun _ => true) (fun _ => true)).1.connections
      = exStLoop.connections ∧
    lookupRoom (runLoop exStLoop "r1" 1 ["a", "b"] (fun _ => true)
        (fun _ => true)).1.rooms "r1"
      = some { (⟨"r1", "room one", "print(1)", "owner1", true, some "pw"⟩ : PRoom) with
          code := (["a", "b"] : List String).foldl (fun _ m => m) "print(1)" } :=
  c7_write_then_broadcast_in_order exStLoop "r1" 1 ["a", "b"] (fun _ => true)
    ⟨"r1", "room one", "print(1)", "owner1", true, some "pw"⟩ (by decide)

/-- C1: evaluated on the concrete state `exStPriv` — a room with
`is_private = true`, owner owner1 and membership exactly {owner1} — an
anonymous connection attempt (no identity) is not rejected: the source never
reads `is_private`, so the connection is attached to the room's registry
entry and the current document is replayed to it, with no error event of any
kind; the claimed must-join-first rejection does not exist in the code. -/
theorem c1_private_room_anonymous_is_attached :
    (wsConnect exStPriv "r1" 1 none "p1" (fun _ => true)).2.2 = true ∧
    lookupConns (wsConnect exStPriv "r1" 1 none "p1" (fun _ => true)).1.connections "r1"
      = some [⟨1, none⟩] ∧
    (wsConnect exStPriv "r1" 1 none "p1" (fun _ => true)).2.1
      = [Event.codeSent 1 "print(1)"] := by
  refine ⟨by decide, by decide, by decide⟩

theorem detach_eq_of_fresh (reg : Registry) (rid : String) (ws : Nat)
    (hfresh : ∀ e ∈ reg, ∀ c ∈ e.2, c.ws ≠ ws)
    (hinv : ∀ e ∈ reg, e.2 ≠ [])
    (hnodup : (reg.map Prod.fst).Nodup) :
    detach reg rid ws = reg := by
  cases hl : lookupConns reg rid with
  | none => unfold detach; rw [hl]
  | some l =>
    obtain ⟨e, hfind⟩ : ∃ e, reg.find? (fun e => e.1 == rid) = some e := by
      unfold lookupConns at hl
      cases hf : reg.find? (fun e => e.1 == rid) with
      | none => rw [hf] at hl; simp at hl
      | some e => exact ⟨e, rfl⟩
    have hmem : e ∈ reg := List.mem_of_find?_eq_some hfind
    have hkey : e.1 = rid := by simpa using List.find?_some hfind
    have hsnd : e.2 = l := by
      unfold lookupConns at hl
      rw [hfind] at hl
      simpa using hl
    have hfilter : l.filter (fun c => c.ws != ws) = l := by
      refine List.filter_eq_self.mpr ?_
      intro c hc
      have := hfresh e hmem c (hsnd ▸ hc)
      simpa using this
    have hne : ¬ (l.filter (fun c => c.ws != ws)).isEmpty := by
      rw [hfilter]
      have := hinv e hmem
      rw [hsnd] at this
      simpa [List.isEmpty_iff] using this
    unfold detach
    rw [hl]
    dsimp only
    rw [if_neg hne, hfilter]
    unfold setConns
    conv_rhs => rw [← List.map_id reg]
    refine List.map_congr_left ?_
    intro x hx
    by_cases hxk : x.1 = rid
    · have hxe : x = e :=
        List.inj_on_of_nodup_map hnodup hx hmem (by rw [hxk, hkey])
      rw [if_pos (by simp [hxk])]
      rw [hxe, id]
      exact (Prod.ext hkey hsnd).symm
    · simp [hxk]

theorem websocketEndpoint_room_not_found (st : ServerState) (rid : String)
    (ws : Nat) (user_id : Option String) (pid : String) (msgs : List String)
    (commitOk : String → Bool) (ok : Nat → Bool)
    (hroom : lookupRoom st.rooms rid = none) :
    websocketEndpoint st rid ws user_id pid msgs commitOk ok
      = ((wsCleanup st rid ws user_id ok).1,
         Event.errorSent ws "Room not found" :: Event.closedConn ws ::
           (wsCleanup st rid ws user_id ok).2,
         false) := by
  have hc : wsConnect st rid ws user_id pid ok
      = (st, [.errorSent ws "Room not found", .closedConn ws], false) := by
    unfold wsConnect
    rw [hroom]
  simp [websocketEndpoint, hc]

/-- Counterexample to C6 as stated: in `exStStale` no room r1 exists, but the
registry still holds an entry for r1 with live connection 2 (left over from
before the room's deletion).  An attempt authenticated as u1 with fresh
handle 1 is terminated with the error surfaced and the registry is unchanged
— but the cleanup block still broadcasts a user-left presence event for u1
to connection 2, so "no presence event is emitted" is false. -/
theorem c6_stale_registry_left_event_counterexample :
    lookupRoom exStStale.rooms "r1" = none ∧
    (websocketEndpoint exStStale "r1" 1 (some "u1") "p1" [] (fun _ => true)
        (fun _ => true)).1.connections = exStStale.connections ∧
    (websocketEndpoint exStStale "r1" 1 (some "u1") "p1" [] (fun _ => true)
        (fun _ => true)).2.1
      = [Event.errorSent 1 "Room not found", Event.closedConn 1,
         Event.leftSent 2 "u1" "alice"] := by
  refine ⟨by decide, by decide, by decide⟩

theorem wsCleanup_left_events (st : ServerState) (rid : String) (ws : Nat)
    (user_id : Option String) (ok : Nat → Bool) :
    ∀ e ∈ (wsCleanup st rid ws user_id ok).2, ∃ r u nm,
      e = Event.leftSent r u nm ∧
        ∃ c ∈ (lookupConns (detach st.connections rid ws) rid).getD [],
          c.ws = r := by
  intro e he
  cases user_id with
  | none => exact absurd he (by simp [wsCleanup])
  | some uid =>
    have hev : (wsCleanup st rid ws (some uid) ok).2
        = match findUser st.users uid with
          | none => []
          | some u =>
            match lookupConns (detach st.connections rid ws) rid with
            | none => []
            | some l =>
              (deliverAll l ok).map (fun r => Event.leftSent r uid u.username) := rfl
    rw [hev] at he
    cases hu : findUser st.users uid with
    | none => rw [hu] at he; simp at he
    | some u =>
      rw [hu] at he
      cases hl : lookupConns (detach st.connections rid ws) rid with
      | none => rw [hl] at he; simp at he
      | some l =>
        rw [hl] at he
        obtain ⟨r, hr, rfl⟩ := List.mem_map.mp he
        obtain ⟨⟨c, hcl, hcw⟩, _⟩ := (deliverAll_mem l ok r).mp hr
        exact ⟨r, uid, u.username, rfl, c, by simp [hl, hcl], hcw⟩

/-- C6 (amended): a connection attempt naming a room id for which no room row
exists is terminated with the error surfaced to the caller; the connection
is never attached (the registry is left unchanged) and no store error
escapes.  The only events besides the error and the close are user-left
presence events emitted by the cleanup block, each delivered to a connection
that was already in the registry's (stale) entry for that room id — which
can only occur when the caller is authenticated and such a stale entry
exists; with no stale entry, or an anonymous caller, no presence event is
emitted. -/
theorem c6_room_not_found_terminates (st : ServerState) (rid : String) (ws : Nat)
    (user_id : Option String) (pid : String) (msgs : List String)
    (commitOk : String → Bool) (ok : Nat → Bool)
    (hroom : lookupRoom st.rooms rid = none)
    (hfresh : ∀ e ∈ st.connections, ∀ c ∈ e.2, c.ws ≠ ws)
    (hinv : ∀ e ∈ st.connections, e.2 ≠ [])
    (hnodup : (st.connections.map Prod.fst).Nodup) :
    (websocketEndpoint st rid ws user_id pid msgs commitOk ok).1.connections
      = st.connections ∧
    (websocketEndpoint st rid ws user_id pid msgs commitOk ok).2.2 = false ∧
    (websocketEndpoint st rid ws user_id pid msgs commitOk ok).2.1
      = Event.errorSent ws "Room not found" :: Event.closedConn ws ::
          (wsCleanup st rid ws user_id ok).2 ∧
    (∀ e ∈ (wsCleanup st rid ws user_id ok).2, ∃ r u nm,
      e = Event.leftSent r u nm ∧
        ∃ c ∈ (lookupConns st.connections rid).getD [], c.ws = r) := by
  have hdet : detach st.connections rid ws = st.connections :=
    detach_eq_of_fresh st.connections rid ws hfresh hinv hnodup
  have hee := websocketEndpoint_room_not_found st rid ws user_id pid msgs commitOk ok hroom
  have hclean1 : (wsCleanup st rid ws user_id ok).1.connections = st.connections := hdet
  refine ⟨by rw [hee]; exact hclean1, by rw [hee], by rw [hee], ?_⟩
  intro e he
  obtain ⟨r, u, nm, heq, c, hc, hcw⟩ := wsCleanup_left_events st rid ws user_id ok e he
  rw [hdet] at hc
  exact ⟨r, u, nm, heq, c, hc, hcw⟩

/-- Witness for C6's amended theorem at the concrete stale-registry state. -/
theorem c6_room_not_found_terminates_witness :
    (websocketEndpoint exStStale "r1" 1 (some "u1") "p1" [] (fun _ => true)
        (fun _ => true)).1.connections = exStStale.connections ∧
    (websocketEndpoint exStStale "r1" 1 (some "u1") "p1" [] (fun _ => true)
        (fun _ => true)).2.2 = false ∧
    (websocketEndpoint exStStale "r1" 1 (some "u1") "p1" [] (fun _ => true)
        (fun _ => true)).2.1
      = Event.errorSent 1 "Room not found" :: Event.closedConn 1 ::
          (wsCleanup exStStale "r1" 1 (some "u1") (fun _ => true)).2 ∧
    (∀ e ∈ (wsCleanup exStStale "r1" 1 (some "u1") (fun _ => true)).2, ∃ r u nm,
      e = Event.leftSent r u nm ∧
        ∃ c ∈ (lookupConns exStStale.connections "r1").getD [], c.ws = r) :=
  c6_room_not_found_terminates exStStale "r1" 1 (some "u1") "p1" [] (fun _ => true)
    (fun _ => true) (by decide) (by decide) (by decide) (by decide)
